import Mathlib

/-!
Shallow embedding of `restful_api_guidelines_linter/cli.py` (an OpenAPI/Swagger 2.0
style linter) together with proofs about the claims of its specification.

Modelling conventions:
* Parsed YAML documents are modelled by the inductive `Yaml` (strings, integers,
  null, sequences, mappings).  Mappings are association lists in insertion
  order, which is how CPython dictionaries iterate.  Mapping keys are `PyKey`
  (a YAML key of a status-code mapping can be an integer or a string).
* Python's `dict.get(k, default)` is `pyGetD`; `dict.get(k)` (`None` default)
  is `pyGet?`.  Calling `.get` on a non-mapping raises `AttributeError` in
  Python and crashes the whole run; the embedding totalises these cases
  (returning the absent result) and the theorems about whole runs carry
  well-formedness hypotheses that keep them inside the faithful domain.
* The external collaborators (`swagger_spec_validator.validate_spec`, the
  `inflect` engine used by the pluralisation rule) are parameters of the
  embedded `run_linter`, quantified over in every theorem.
* `re` patterns that appear in the source are compiled into explicit character
  scanners, including Python's semantics of `$` (which also matches just
  before one trailing newline) and of `.` (which does not match a newline).
-/

inductive PyKey where
  | s (v : String)
  | i (n : Int)
deriving DecidableEq, Repr

inductive Yaml where
  | str (s : String)
  | int (n : Int)
  | null
  | list (xs : List Yaml)
  | dict (es : List (PyKey × Yaml))
deriving Repr

mutual
def Yaml.beq : Yaml → Yaml → Bool
  | .str a, .str b => a == b
  | .int a, .int b => a == b
  | .null, .null => true
  | .list xs, .list ys => Yaml.beqList xs ys
  | .dict es, .dict fs => Yaml.beqEntries es fs
  | _, _ => false

def Yaml.beqList : List Yaml → List Yaml → Bool
  | [], [] => true
  | x :: xs, y :: ys => Yaml.beq x y && Yaml.beqList xs ys
  | _, _ => false

def Yaml.beqEntries : List (PyKey × Yaml) → List (PyKey × Yaml) → Bool
  | [], [] => true
  | (k, v) :: es, (k2, v2) :: fs => k == k2 && Yaml.beq v v2 && Yaml.beqEntries es fs
  | _, _ => false
end

mutual
theorem Yaml.beq_iff : ∀ a b : Yaml, Yaml.beq a b = true ↔ a = b
  | .str a, .str b => by simp [Yaml.beq]
  | .int a, .int b => by simp [Yaml.beq]
  | .null, .null => by simp [Yaml.beq]
  | .list xs, .list ys => by simp [Yaml.beq, Yaml.beqList_iff xs ys]
  | .dict es, .dict fs => by simp [Yaml.beq, Yaml.beqEntries_iff es fs]
  | .str _, .int _ => by simp [Yaml.beq]
  | .str _, .null => by simp [Yaml.beq]
  | .str _, .list _ => by simp [Yaml.beq]
  | .str _, .dict _ => by simp [Yaml.beq]
  | .int _, .str _ => by simp [Yaml.beq]
  | .int _, .null => by simp [Yaml.beq]
  | .int _, .list _ => by simp [Yaml.beq]
  | .int _, .dict _ => by simp [Yaml.beq]
  | .null, .str _ => by simp [Yaml.beq]
  | .null, .int _ => by simp [Yaml.beq]
  | .null, .list _ => by simp [Yaml.beq]
  | .null, .dict _ => by simp [Yaml.beq]
  | .list _, .str _ => by simp [Yaml.beq]
  | .list _, .int _ => by simp [Yaml.beq]
  | .list _, .null => by simp [Yaml.beq]
  | .list _, .dict _ => by simp [Yaml.beq]
  | .dict _, .str _ => by simp [Yaml.beq]
  | .dict _, .int _ => by simp [Yaml.beq]
  | .dict _, .null => by simp [Yaml.beq]
  | .dict _, .list _ => by simp [Yaml.beq]

theorem Yaml.beqList_iff : ∀ xs ys : List Yaml, Yaml.beqList xs ys = true ↔ xs = ys
  | [], [] => by simp [Yaml.beqList]
  | x :: xs, y :: ys => by
    simp [Yaml.beqList, Yaml.beq_iff x y, Yaml.beqList_iff xs ys]
  | [], _ :: _ => by simp [Yaml.beqList]
  | _ :: _, [] => by simp [Yaml.beqList]

theorem Yaml.beqEntries_iff : ∀ es fs : List (PyKey × Yaml), Yaml.beqEntries es fs = true ↔ es = fs
  | [], [] => by simp [Yaml.beqEntries]
  | (k, v) :: es, (k2, v2) :: fs => by
    simp [Yaml.beqEntries, Yaml.beq_iff v v2, Yaml.beqEntries_iff es fs]
  | [], _ :: _ => by simp [Yaml.beqEntries]
  | _ :: _, [] => by simp [Yaml.beqEntries]
end

instance : DecidableEq Yaml := fun a b =>
  decidable_of_iff (Yaml.beq a b = true) (Yaml.beq_iff a b)

/-- Python `str()` applied to a mapping key (`'{}'.format(key)` uses the same
conversion): strings are unchanged, integers print in decimal. -/
def PyKey.pyStr : PyKey → String
  | .s v => v
  | .i n => toString n

def Yaml.isDict : Yaml → Bool
  | .dict _ => true
  | _ => false

/-- The entry list of a mapping; `[]` for a non-mapping. -/
def Yaml.entries : Yaml → List (PyKey × Yaml)
  | .dict es => es
  | _ => []

/-- First value bound to key `k` in an association list (Python dictionaries
have unique keys, so lookup of the key's single binding). -/
def dictLookup (es : List (PyKey × Yaml)) (k : PyKey) : Option Yaml :=
  match es with
  | [] => none
  | e :: rest => if e.1 = k then some e.2 else dictLookup rest k

/-- Mapping lookup on a value: `none` for an absent key or a non-mapping. -/
def mlookup (y : Yaml) (k : PyKey) : Option Yaml :=
  match y with
  | .dict es => dictLookup es k
  | _ => none

/-- Python `d.get(key)` for a string key: `none` models `None`.
Calling `.get` on a non-mapping raises `AttributeError` in Python; totalised
here as `none`, with well-formedness hypotheses excluding that case in the
theorems about whole runs. -/
def Yaml.get? (y : Yaml) (k : String) : Option Yaml :=
  mlookup y (.s k)

/-- Python `d.get(key, default)`. -/
def Yaml.getD (y : Yaml) (k : String) (d : Yaml) : Yaml :=
  (y.get? k).getD d

/-- Python `key in d` for a mapping and a string key. -/
def Yaml.hasKey (y : Yaml) (k : String) : Bool :=
  (y.get? k).isSome

/-- Python `d[k] = v`: replace the first binding of `k` keeping its position,
or append a new binding at the end (CPython dictionary insertion order). -/
def dictSet (es : List (PyKey × Yaml)) (k : PyKey) (v : Yaml) : List (PyKey × Yaml) :=
  match es with
  | [] => [(k, v)]
  | (k2, v2) :: rest =>
    if k2 = k then (k, v) :: rest else (k2, v2) :: dictSet rest k v

/-- Python truthiness of the values a linted document can contain. -/
def Yaml.truthy : Yaml → Bool
  | .str s => s ≠ ""
  | .int n => n ≠ 0
  | .null => false
  | .list xs => xs ≠ []
  | .dict es => es ≠ []

/-- Python `<` on strings: compare code points lexicographically, a proper
prefix being smaller.  (This is the same order as the library's
`String.lt`, whose `Decidable` instance does not reduce in the kernel, so
the embedding uses an explicit Boolean comparison.) -/
def listLtB : List Char → List Char → Bool
  | [], [] => false
  | [], _ :: _ => true
  | _ :: _, [] => false
  | a :: as, b :: bs =>
    if a.toNat < b.toNat then true
    else if b.toNat < a.toNat then false
    else listLtB as bs

def strLtB (a b : String) : Bool :=
  listLtB a.data b.data

/-- Python `s.endswith(c)` for a single character. -/
def endsWithChar (s : String) (c : Char) : Bool :=
  s.data.getLast? = some c

/-- Python `s.split(sep)` for a single-character separator (the result is
never empty; splitting the empty string gives one empty segment, as in
Python). -/
def splitOnChar (sep : Char) : List Char → List (List Char)
  | [] => [[]]
  | c :: cs =>
    let r := splitOnChar sep cs
    if c = sep then [] :: r else (c :: r.headD []) :: r.tail

/-- The character class `[/a-z0-9.-]` of the path-naming pattern. -/
def pathChar (c : Char) : Bool :=
  c = '/' || c.isLower || c.isDigit || c = '.' || c = '-'

/-- Tail of `re.match('^/[/a-z0-9.-]*$', s)` after the leading `/`:
a run of `pathChar`s, where Python's `$` also accepts exactly one trailing
newline after the run. -/
def pathTailOk : List Char → Bool
  | [] => true
  | c :: cs => (pathChar c && pathTailOk cs) || (c = '\n' && cs.isEmpty)

/-- `re.match('^/[/a-z0-9.-]*$', s)` as a Boolean (the source only tests the
match for truthiness). -/
def pathNameOk (s : String) : Bool :=
  match s.data with
  | '/' :: cs => pathTailOk cs
  | _ => false

/-- The character class `[a-z0-9_]` of the query-parameter pattern. -/
def queryChar (c : Char) : Bool :=
  c.isLower || c.isDigit || c = '_'

def queryTailOk : List Char → Bool
  | [] => true
  | c :: cs => (queryChar c && queryTailOk cs) || (c = '\n' && cs.isEmpty)

/-- `re.match('^[a-z0-9_]*$', s)` as a Boolean (Python `$` semantics as above;
in particular the empty string matches). -/
def queryNameOk (s : String) : Bool :=
  queryTailOk s.data

/-- `re.match('^[a-z][a-z0-9_]*$', s)` as a Boolean: one lowercase letter,
then a run of `[a-z0-9_]`, with Python's `$` semantics. -/
def propNameOk (s : String) : Bool :=
  match s.data with
  | c :: cs => c.isLower && queryTailOk cs
  | [] => false

/-- `re.match('.*v[0-9].*', s)` as a Boolean: some position holds `v`
immediately followed by a digit, and no newline occurs before that position
(Python `.` does not match a newline; the trailing `.*` can match empty). -/
def hasVersionMatch : List Char → Bool
  | [] => false
  | c :: rest =>
    if c = '\n' then false
    else
      (c = 'v' && (match rest with | d :: _ => d.isDigit | [] => false))
        || hasVersionMatch rest

/-- `re.sub('{[^}]*}', '', s)` as a one-pass scanner.  A match of
`{[^}]*}` starts at a `{` and, since the class `[^}]` cannot cross a `}`,
always ends at the first `}` after it.  The scanner therefore keeps
characters while outside a candidate match (`pending = none`) and, after an
opening `{`, buffers the scanned characters (`pending = some acc`, in
reverse) until a `}` closes the match (buffer discarded) or the input ends
without any `}` (no match can start inside the buffer either, because a
match needs a `}`; the buffer is kept verbatim). -/
def stripLoop : List Char → Option (List Char) → List Char
  | [], none => []
  | [], some acc => acc.reverse
  | c :: cs, none =>
    if c = '{' then stripLoop cs (some ['{']) else c :: stripLoop cs none
  | c :: cs, some acc =>
    if c = '}' then stripLoop cs none else stripLoop cs (some (c :: acc))

def stripVariables (s : String) : String :=
  ⟨stripLoop s.data none⟩

/-- One reported violation: the `Issue` namedtuple of the source.  The
`location` field is a `Yaml` value because one rule (`lint_query_params`)
yields a whole parameter mapping rather than a location string. -/
structure Issue where
  location : Yaml
  message : String
  guideline : String
deriving DecidableEq, Repr

/-- An element yielded by a rule: either a bare location (a string for every
rule except `lint_query_params`, which yields the parameter mapping itself)
or a `(location, message)` pair. -/
inductive RuleYield where
  | bare (l : Yaml)
  | pair (l : String) (m : String)
deriving DecidableEq, Repr

/-- The reference resolver returned by the external schema validator:
`resolver.resolve(ref)` returns a pair whose second component is the target
node (the first component, a URL fragment, is discarded by the source). -/
structure Resolver where
  resolve : Yaml → Yaml × Yaml

/-- The external `inflect` engine: `singular_noun` returns the singular form
or `False` (modelled `none`) when the word is not recognised as a plural;
`plural_noun` returns the plural form. -/
structure Inflect where
  singular_noun : String → Option String
  plural_noun : String → String

/-- A registered rule: its docstring (used verbatim as the guideline text)
and its body. -/
structure NamedRule where
  guideline : String
  run : Yaml → Resolver → List RuleYield

/-- Normalisation of one yielded element into an `Issue` performed by
`run_linter`: tuples are unpacked, bare yields get message `''`
(`message or ''` is the identity on the strings a tuple can carry). -/
def mkIssue (guideline : String) : RuleYield → Issue
  | .bare l => ⟨l, "", guideline⟩
  | .pair l m => ⟨.str l, m, guideline⟩

mutual
def yamlSize : Yaml → Nat
  | .str _ => 1
  | .int _ => 1
  | .null => 1
  | .list xs => 1 + yamlListSize xs
  | .dict es => 1 + yamlEntriesSize es

def yamlListSize : List Yaml → Nat
  | [] => 0
  | y :: ys => yamlSize y + 1 + yamlListSize ys

def yamlEntriesSize : List (PyKey × Yaml) → Nat
  | [] => 0
  | e :: es => yamlSize e.2 + 1 + yamlEntriesSize es
end

/-! ## The compatibility normalisation (`compatibility_layer`) -/

/-- The loop body building `response_definitions`: an empty mapping filled by
`response_definitions[str(response_code)] = response_def` in iteration
order. -/
def stringifyResponses (responses : Yaml) : List (PyKey × Yaml) :=
  responses.entries.foldl (fun acc e => dictSet acc (.s e.1.pyStr) e.2) []

/-- `method_def['responses'] = response_definitions` applied to one method
entry of the inner `compatibility_layer` loop (`continue` for the
`parameters` entry and non-mapping values; the assignment keeps the
position of an existing `responses` binding and appends one otherwise).
A non-mapping method table makes Python raise on `.items()`; it is returned
unchanged by `compatMethods` and excluded by `compatWF` in the run-level
theorems. -/
def compatMethod (mk : PyKey) (md : Yaml) : Yaml :=
  if mk = .s "parameters" || !md.isDict then md
  else .dict (dictSet md.entries (.s "responses")
    (.dict (stringifyResponses (md.getD "responses" (.dict [])))))

def compatMethods (methods : Yaml) : Yaml :=
  match methods with
  | .dict mes => .dict (mes.map (fun me => (me.1, compatMethod me.1 me.2)))
  | other => other

def compatPaths (paths : Yaml) : Yaml :=
  match paths with
  | .dict pes => .dict (pes.map (fun pe => (pe.1, compatMethods pe.2)))
  | other => other

/-- `compatibility_layer`: make every response status code key a string.
Python mutates the method mappings in place; the embedding rebuilds the same
tree.  A non-mapping input is returned unchanged (first line of the
source). -/
def compatibility_layer (spec : Yaml) : Yaml :=
  match spec with
  | .dict es =>
    .dict (es.map (fun e =>
      (e.1, if e.1 = .s "paths" then compatPaths e.2 else e.2)))
  | other => other

/-- The part of a document `compatibility_layer` walks without raising:
`paths` (when present) is a mapping, each path's method table is a mapping,
and each mapping-valued method entry other than `parameters` has a
mapping-valued `responses` when one is present. -/
def compatWF (spec : Yaml) : Bool :=
  let paths := spec.getD "paths" (.dict [])
  paths.isDict && paths.entries.all (fun pe =>
    pe.2.isDict && pe.2.entries.all (fun me =>
      me.1 = .s "parameters" || !me.2.isDict
        || (me.2.getD "responses" (.dict [])).isDict))

/-! ## The rules -/

def lint_base_path_doc : String :=
  "\n    Must: Do Not Use URI Versioning\n\n    https://zalando.github.io/restful-api-guidelines/compatibility/Compatibility.html#must-do-not-use-uri-versioning\n    "

/-- `lint_base_path`: yield `'basePath'` when the `basePath` root field
matches `.*v[0-9].*`.  (`re.match` on a non-string raises in Python; such a
value yields nothing here.) -/
def lint_base_path (spec : Yaml) (resolver : Resolver) : List RuleYield :=
  match spec.getD "basePath" (.str "") with
  | .str base_path =>
    if hasVersionMatch base_path.data then [.bare (.str "basePath")] else []
  | _ => []

def lint_path_names_doc : String :=
  "\n    Must: Use lowercase separate words with hyphens for Path Segments\n\n    http://zalando.github.io/restful-api-guidelines/naming/Naming.html#must-use-lowercase-separate-words-with-hyphens-for-path-segments\n    "

/-- `lint_path_names`: for every path template, strip `{variable}` segments
and yield `paths/"<path>"` unless the result matches `^/[/a-z0-9.-]*$`.
(Integer path keys make `re.sub` raise in Python; they yield nothing
here.) -/
def lint_path_names (spec : Yaml) (resolver : Resolver) : List RuleYield :=
  (spec.getD "paths" (.dict [])).entries.filterMap (fun pe =>
    match pe.1 with
    | .s path_name =>
      if pathNameOk (stripVariables path_name) then none
      else some (.bare (.str ("paths/\"" ++ path_name ++ "\"")))
    | .i _ => none)

def lint_http_methods_doc : String :=
  "\n    Must: Use HTTP Methods Correctly\n\n    http://zalando.github.io/restful-api-guidelines/http/Http.html#must-use-http-methods-correctly\n    "

/-- Python `'post' in methods_available` for the shapes a parsed document can
take: key membership for a mapping, element membership for a sequence.
(The substring test Python would run on a string value and the `TypeError`
on other values are not modelled; run-level theorems assume mapping-shaped
method tables.) -/
def hasPostKey : Yaml → Bool
  | .dict es => (dictLookup es (.s "post")).isSome
  | .list xs => xs.contains (.str "post")
  | _ => false

/-- `lint_http_methods`: a path ending with `}` that also defines a `post`
method is flagged with an explanatory message. -/
def lint_http_methods (spec : Yaml) (resolver : Resolver) : List RuleYield :=
  (spec.getD "paths" (.dict [])).entries.filterMap (fun pe =>
    match pe.1 with
    | .s path_name =>
      if endsWithChar path_name '\x7d' && hasPostKey pe.2 then
        some (.pair ("paths/\"" ++ path_name ++ "\"")
          "the POST method is used on a path ending with a path variable")
      else none
    | .i _ => none)

def lint_path_avoid_trailing_slashes_doc : String :=
  "\n    Must: Avoid Trailing Slashes\n\n    https://zalando.github.io/restful-api-guidelines/naming/Naming.html#must-avoid-trailing-slashes\n    "

/-- `lint_path_avoid_trailing_slashes`: a path longer than one character
ending with `/` is flagged. -/
def lint_path_avoid_trailing_slashes (spec : Yaml) (resolver : Resolver) : List RuleYield :=
  (spec.getD "paths" (.dict [])).entries.filterMap (fun pe =>
    match pe.1 with
    | .s path_name =>
      if path_name.length > 1 && endsWithChar path_name '/' then
        some (.bare (.str ("paths/\"" ++ path_name ++ "\"")))
      else none
    | .i _ => none)

def lint_query_params_doc : String :=
  "\n    Must: Use snake_case (never camelCase) for Query Parameters\n\n    http://zalando.github.io/restful-api-guidelines/naming/Naming.html#must-use-snakecase-never-camelcase-for-query-parameters\n    "

/-- Iteration of `for param in method_def.get('parameters', {})`: a sequence
yields its elements; the default empty mapping yields nothing.  (A
non-empty mapping would iterate its keys and a string its characters, on
which the subsequent `param.get` raises in Python; both yield nothing
here.) -/
def paramSeq : Yaml → List Yaml
  | .list xs => xs
  | _ => []

/-- The per-parameter body of `lint_query_params`: resolve a `$ref` if
present, then, when `param.get('type') == 'query'` and the parameter's
`name` (default `''`) fails `^[a-z0-9_]*$`, yield the parameter value
itself (sic: the source yields `param`, not a location string). -/
def queryParamYield (resolver : Resolver) (param0 : Yaml) : List RuleYield :=
  let param := if param0.isDict && param0.hasKey "$ref"
    then (resolver.resolve (param0.getD "$ref" .null)).2
    else param0
  if param.get? "type" = some (.str "query") then
    match param.getD "name" (.str "") with
    | .str name => if queryNameOk name then [] else [.bare param]
    | _ => []
  else []

/-- `lint_query_params`: walk every operation's parameter list. -/
def lint_query_params (spec : Yaml) (resolver : Resolver) : List RuleYield :=
  (spec.getD "paths" (.dict [])).entries.flatMap (fun pe =>
    pe.2.entries.flatMap (fun me =>
      if me.2.isDict then
        (paramSeq (me.2.getD "parameters" (.dict []))).flatMap (queryParamYield resolver)
      else []))

def lint_property_names_doc : String :=
  "\n    Must: Property names must be snake_case (and never camelCase).\n\n    http://zalando.github.io/restful-api-guidelines/json-guidelines/JsonGuidelines.html#must-property-names-must-be-snakecase-and-never-camelcase\n    "

/-- `definition.get('type') == 'object'`. -/
def isObjectTyped (y : Yaml) : Bool :=
  y.get? "type" = some (.str "object")

/-- `definition.get('properties', {}).items()`. -/
def propEntries (defn : Yaml) : List (PyKey × Yaml) :=
  (defn.getD "properties" (.dict [])).entries

/-- The issues one popped definition yields directly: every property whose
name fails `^[a-z][a-z0-9_]*$`.  (An integer property key makes `re.match`
raise in Python; it yields nothing here.) -/
def propDirectIssues (def_name : String) (defn : Yaml) : List RuleYield :=
  (propEntries defn).filterMap (fun e =>
    match e.1 with
    | .s name =>
      if propNameOk name then none
      else some (.bare (.str ("definitions/" ++ def_name ++ "/" ++ name)))
    | .i _ => none)

/-- The worklist entries one popped definition appends: its object-typed
properties, under the extended name `<def_name>/<property>`. -/
def propPushes (def_name : String) (defn : Yaml) : List (String × Yaml) :=
  (propEntries defn).filterMap (fun e =>
    match e.1 with
    | .s name => if isObjectTyped e.2 then some (def_name ++ "/" ++ name, e.2) else none
    | .i _ => none)

def wlSize (wl : List (String × Yaml)) : Nat :=
  (wl.map (fun e => yamlSize e.2 + 1)).sum

/-- The `while definitions:` worklist of `lint_property_names`.  Python pops
from the end of the list and appends pushed entries at the end; the
embedding keeps the stack reversed (head = next pop), so pushed entries are
prepended in reverse.  The loop terminates because pushed values are proper
subterms of the popped definition; the embedding makes that explicit with a
fuel argument proven sufficient (`wlSize` strictly decreases per pop). -/
def propLoop : Nat → List (String × Yaml) → List RuleYield
  | _, [] => []
  | 0, _ :: _ => []
  | fuel + 1, (def_name, defn) :: rest =>
    propDirectIssues def_name defn
      ++ propLoop fuel ((propPushes def_name defn).reverse ++ rest)

/-- The initial worklist: the object-typed entries of `definitions`, in
iteration order.  (A definition key is only ever string-formatted by the
source, so an integer key is taken as its decimal string here.) -/
def startDefs (spec : Yaml) : List (String × Yaml) :=
  (spec.getD "definitions" (.dict [])).entries.filterMap (fun e =>
    if isObjectTyped e.2 then some (e.1.pyStr, e.2) else none)

/-- `lint_property_names`: worklist traversal of all object-typed
definitions and their nested object-typed properties. -/
def lint_property_names (spec : Yaml) (resolver : Resolver) : List RuleYield :=
  propLoop (wlSize (startDefs spec) + 1) (startDefs spec).reverse

def lint_response_objects_doc : String :=
  "\n    Must: Always Return JSON Objects As Top-Level Data Structures To Support Extensibility\n\n    https://zalando.github.io/restful-api-guidelines/compatibility/Compatibility.html#must-always-return-json-objects-as-toplevel-data-structures-to-support-extensibility\n    "

/-- `lint_response_objects`: for every response of every mapping-valued
method, flag a schema whose `type` is truthy and not `'object'`. -/
def lint_response_objects (spec : Yaml) (resolver : Resolver) : List RuleYield :=
  (spec.getD "paths" (.dict [])).entries.flatMap (fun pe =>
    pe.2.entries.flatMap (fun me =>
      if me.2.isDict then
        (me.2.getD "responses" (.dict [])).entries.filterMap (fun re2 =>
          match (re2.2.getD "schema" (.dict [])).get? "type" with
          | some t =>
            if t.truthy && t ≠ .str "object" then
              some (.bare (.str ("paths/\"" ++ pe.1.pyStr ++ "\"/" ++ me.1.pyStr
                ++ "/responses/" ++ re2.1.pyStr)))
            else none
          | none => none)
      else []))

def lint_plural_resource_names_doc : String :=
  "\n    Must: Pluralize Resource Names\n\n    https://zalando.github.io/restful-api-guidelines/naming/Naming.html#must-pluralize-resource-names\n    "

/-- `lint_plural_resource_names`: split each variable-stripped path on `/`,
skip `.well-known`, replace hyphens by spaces, and flag a non-empty segment
the inflection engine judges singular (or recognises as neither form while
its pluralisation differs from it).  `singular_noun` returning a falsy value
is modelled as `none`. -/
def lint_plural_resource_names (ie : Inflect) (spec : Yaml) (resolver : Resolver) : List RuleYield :=
  (spec.getD "paths" (.dict [])).entries.flatMap (fun pe =>
    match pe.1 with
    | .s path_name =>
      ((splitOnChar '/' (stripVariables path_name).data).map String.mk).filterMap
        (fun segment =>
        if segment = ".well-known" then none
        else
          let resource : String := ⟨segment.data.map (fun c => if c = '-' then ' ' else c)⟩
          if resource = "" then none
          else
            let singular := ie.singular_noun resource
            let plural := ie.plural_noun resource
            if singular = some resource
                || (singular = none && plural ≠ "" && plural ≠ resource) then
              some (.pair ("paths/\"" ++ path_name ++ "\"")
                ("\"" ++ resource ++ "\" is not in plural form"))
            else none)
    | .i _ => [])

/-! ## `sorted(issues)` and `run_linter` -/

/-- Python `<` on the values an `Issue.location` can hold.  Strings compare
lexicographically by code point, integers numerically; every other
comparison (`dict`, `None`, mixed types) raises `TypeError`, modelled as
`.error ()`.  (Sequences, which Python would compare lexicographically,
never occur as locations or messages and are modelled as incomparable.) -/
def yamlLt? : Yaml → Yaml → Except Unit Bool
  | .str a, .str b => .ok (strLtB a b)
  | .int a, .int b => .ok (decide (a < b))
  | _, _ => .error ()

/-- Python `<` on `Issue` namedtuples: find the first field where the two
tuples differ (by `==`) and compare it with `<`; equal tuples are not less.
Messages and guidelines are always strings, so only the location comparison
can raise. -/
def pyIssueLt (a b : Issue) : Except Unit Bool :=
  if a.location = b.location then
    if a.message = b.message then .ok (strLtB a.guideline b.guideline)
    else .ok (strLtB a.message b.message)
  else yamlLt? a.location b.location

/-- Insert into a sorted prefix, propagating a comparison `TypeError`. -/
def pyInsert (x : Issue) : List Issue → Except Unit (List Issue)
  | [] => .ok [x]
  | y :: ys =>
    match pyIssueLt x y with
    | .error e => .error e
    | .ok true => .ok (x :: y :: ys)
    | .ok false =>
      match pyInsert x ys with
      | .error e => .error e
      | .ok t => .ok (y :: t)

/-- Python `sorted` modelled as a stable insertion sort with Python's
element comparison.  On totally comparable inputs every stable sort,
including CPython's, produces this output; an incomparable pair encountered
during sorting raises `TypeError` (`.error ()`). -/
def pySorted : List Issue → Except Unit (List Issue)
  | [] => .ok []
  | x :: xs =>
    match pySorted xs with
    | .error e => .error e
    | .ok t => pyInsert x t

/-- The `lint_*` functions collected from the module's global table, in
definition order, each paired with its docstring (used verbatim as the
guideline text). -/
def linterRules (ie : Inflect) : List NamedRule :=
  [ ⟨lint_base_path_doc, lint_base_path⟩,
    ⟨lint_path_names_doc, lint_path_names⟩,
    ⟨lint_http_methods_doc, lint_http_methods⟩,
    ⟨lint_path_avoid_trailing_slashes_doc, lint_path_avoid_trailing_slashes⟩,
    ⟨lint_query_params_doc, lint_query_params⟩,
    ⟨lint_property_names_doc, lint_property_names⟩,
    ⟨lint_response_objects_doc, lint_response_objects⟩,
    ⟨lint_plural_resource_names_doc, lint_plural_resource_names ie⟩ ]

/-- The issues collected by the rule loop of `run_linter`, in rule order. -/
def collectIssues (rules : List NamedRule) (spec : Yaml) (resolver : Resolver) : List Issue :=
  rules.flatMap (fun nr => (nr.run spec resolver).map (mkIssue nr.guideline))

/-- `run_linter` with an explicit rule list: normalise with
`compatibility_layer`, validate the schema (external collaborator
`validate`, which returns a bound resolver or raises with a message); on
failure return the single synthetic issue; otherwise run every rule and
sort the collected issues.  `.error ()` models an uncaught `TypeError`
raised by `sorted`. -/
def runLinterWith (rules : List NamedRule) (validate : Yaml → Except String Resolver)
    (doc : Yaml) : Except Unit (List Issue) :=
  let spec := compatibility_layer doc
  match validate spec with
  | .error e =>
    .ok [⟨.str "", "Error during Swagger schema validation:\n" ++ e,
      "Must: Provide API Reference Definition using OpenAPI"⟩]
  | .ok resolver => pySorted (collectIssues rules spec resolver)

/-- `run_linter` of the source (YAML deserialisation, an external I/O
concern, happens before `doc`). -/
def run_linter (ie : Inflect) (validate : Yaml → Except String Resolver)
    (doc : Yaml) : Except Unit (List Issue) :=
  runLinterWith (linterRules ie) validate doc

/-! ## Claim-side definitions -/

def PyKey.isStr : PyKey → Bool
  | .s _ => true
  | .i _ => false

/-- The string representation of a status-code key (claim C9's "corresponding
string key"): an integer key becomes its decimal string, a string key is
kept. -/
def stringifyKey : PyKey → PyKey
  | .s v => .s v
  | .i n => .s (toString n)

/-- Replace every key of a `responses` mapping by its string form. -/
def strResponses (r : Yaml) : Yaml :=
  match r with
  | .dict rs => .dict (rs.map (fun e => (stringifyKey e.1, e.2)))
  | other => other

/-- Stringify the `responses` keys of one operation (mapping-valued method
entries other than `parameters`), leaving everything else unchanged. -/
def strMethod (mk : PyKey) (md : Yaml) : Yaml :=
  if mk = .s "parameters" || !md.isDict then md
  else .dict (md.entries.map (fun e =>
    (e.1, if e.1 = .s "responses" then strResponses e.2 else e.2)))

def strMethods (methods : Yaml) : Yaml :=
  match methods with
  | .dict mes => .dict (mes.map (fun me => (me.1, strMethod me.1 me.2)))
  | other => other

def strPaths (paths : Yaml) : Yaml :=
  match paths with
  | .dict pes => .dict (pes.map (fun pe => (pe.1, strMethods pe.2)))
  | other => other

/-- Claim C9's document pair, as a transformation: the same document with
every response status-code key under operations' `responses` mappings
replaced by the corresponding string key. -/
def withStringStatusKeys (doc : Yaml) : Yaml :=
  match doc with
  | .dict es =>
    .dict (es.map (fun e =>
      (e.1, if e.1 = .s "paths" then strPaths e.2 else e.2)))
  | other => other

/-- Each key bound at most once, as every Python mapping has. -/
def nodupKeysB (es : List (PyKey × Yaml)) : Bool :=
  (es.map (fun e => e.1)).Nodup

/-- Every mapping-valued method table entry binds each key at most once
(true of any document parsed from YAML, where mappings are Python
dictionaries). -/
def respNodup (doc : Yaml) : Bool :=
  (doc.getD "paths" (.dict [])).entries.all (fun pe =>
    pe.2.entries.all (fun me => !me.2.isDict || nodupKeysB me.2.entries))

/-- Local check used by `wfProps`: the `properties` entry (when present) is
a mapping all of whose values are mappings, as `lint_property_names`
requires of every node it visits without raising. -/
def propsValOk (es : List (PyKey × Yaml)) : Bool :=
  match dictLookup es (.s "properties") with
  | some (.dict ps) => ps.all (fun e => e.2.isDict)
  | some _ => false
  | none => true

mutual
/-- Everywhere in the tree, any `properties` entry is a mapping of mappings
(`lint_property_names` calls `.get` on every property value it encounters;
a non-mapping one makes Python raise `AttributeError`). -/
def wfProps : Yaml → Bool
  | .str _ => true
  | .int _ => true
  | .null => true
  | .list xs => wfPropsList xs
  | .dict es => propsValOk es && wfPropsEntries es

def wfPropsList : List Yaml → Bool
  | [] => true
  | y :: ys => wfProps y && wfPropsList ys

def wfPropsEntries : List (PyKey × Yaml) → Bool
  | [] => true
  | e :: es => wfProps e.2 && wfPropsEntries es
end

/-- The part of a document `lint_property_names` walks without raising:
`definitions` (when present) is a mapping of mappings, and every
`properties` mapping in the tree is a mapping of mappings. -/
def defsWF (doc : Yaml) : Bool :=
  (doc.getD "definitions" (.dict [])).isDict
    && (doc.getD "definitions" (.dict [])).entries.all (fun e => e.2.isDict)
    && wfProps doc

/-- The descendant relation of the `lint_property_names` worklist: from a
worklist entry `(p, d)`, follow an object-typed property `(k, s)` of `d` to
the entry `(p ++ "/" ++ k, s)`, any number of times. -/
inductive Desc : String × Yaml → String × Yaml → Prop
  | refl (x : String × Yaml) : Desc x x
  | step (p : String) (d : Yaml) (k : String) (s : Yaml) (t : String × Yaml) :
      (PyKey.s k, s) ∈ propEntries d → isObjectTyped s →
      Desc (p ++ "/" ++ k, s) t → Desc (p, d) t

/-! ## General lemmas about the mapping operations -/

theorem dictLookup_map_entry (es : List (PyKey × Yaml)) (f : PyKey → Yaml → Yaml) (k : PyKey) :
    dictLookup (es.map (fun e => (e.1, f e.1 e.2))) k = (dictLookup es k).map (f k) := by
  induction es with
  | nil => simp [dictLookup]
  | cons e es ih =>
    by_cases h : e.1 = k
    · simp [dictLookup, h]
    · simp [dictLookup, h, ih]

theorem dictLookup_dictSet_self (es : List (PyKey × Yaml)) (k : PyKey) (v : Yaml) :
    dictLookup (dictSet es k v) k = some v := by
  induction es with
  | nil => simp [dictSet, dictLookup]
  | cons e es ih =>
    by_cases h : e.1 = k
    · simp [dictSet, h, dictLookup]
    · simp [dictSet, h, dictLookup, ih]

theorem dictLookup_dictSet_ne (es : List (PyKey × Yaml)) (k k2 : PyKey) (v : Yaml)
    (h : k2 ≠ k) : dictLookup (dictSet es k v) k2 = dictLookup es k2 := by
  induction es with
  | nil =>
    simp [dictSet, dictLookup]
    intro hh
    exact absurd hh.symm h
  | cons e es ih =>
    by_cases he : e.1 = k
    · subst he
      have hne : ¬ (e.1 = k2) := fun hh => h (hh.symm)
      simp [dictSet, dictLookup, hne]
    · simp [dictSet, he, dictLookup, ih]

theorem mem_of_dictLookup (es : List (PyKey × Yaml)) (k : PyKey) (v : Yaml)
    (h : dictLookup es k = some v) : (k, v) ∈ es := by
  induction es with
  | nil => simp [dictLookup] at h
  | cons e es ih =>
    by_cases he : e.1 = k
    · simp [dictLookup, he] at h
      have : e = (k, v) := by
        cases e
        simp at he ⊢
        exact ⟨he, h⟩
      rw [← this]
      exact List.mem_cons_self _ _
    · simp [dictLookup, he] at h
      exact List.mem_cons_of_mem _ (ih h)

/-! ## Shared concrete collaborators for witnesses -/

/-- A resolver whose targets are the reference values themselves; no witness
document contains a `$ref`, so it is never consulted. -/
def witnessResolver : Resolver := ⟨fun y => (.null, y)⟩

/-- A validator that accepts every document. -/
def acceptAll : Yaml → Except String Resolver := fun _ => .ok witnessResolver

/-- An inflection oracle for the witness documents: `pets` is recognised as
the plural of `pet`; everything else is unrecognised with pluralisation by
suffixing `s`. -/
def witnessInflect : Inflect :=
  ⟨fun s => if s = "pets" then some "pet" else none, fun s => s ++ "s"⟩

/-! ## C1 -/

/-- C1: for every document failing schema validation (`validate` raises with
message `e`), `run_linter` with any rule list returns exactly one Issue; its
message begins with the validation-error prefix, its guideline is the fixed
sentinel text, and no lint rule is executed (the result does not depend on
the rules at all). -/
theorem c1_validation_failure_short_circuits (rules : List NamedRule)
    (validate : Yaml → Except String Resolver) (doc : Yaml) (e : String)
    (h : validate (compatibility_layer doc) = .error e) :
    runLinterWith rules validate doc =
      .ok [⟨.str "", "Error during Swagger schema validation:\n" ++ e,
        "Must: Provide API Reference Definition using OpenAPI"⟩]
    ∧ ∃ rest, ("Error during Swagger schema validation:\n" ++ e) =
        "Error during Swagger schema validation" ++ rest := by
  constructor
  · simp [runLinterWith, h]
  · refine ⟨":\n" ++ e, ?_⟩
    rw [← String.append_assoc]
    congr 1

theorem c1_witness :
    runLinterWith [] (fun _ => .error "boom") .null =
      .ok [⟨.str "", "Error during Swagger schema validation:\nboom",
        "Must: Provide API Reference Definition using OpenAPI"⟩] :=
  (c1_validation_failure_short_circuits [] (fun _ => .error "boom") .null "boom" rfl).1

theorem mem_dictSet (es : List (PyKey × Yaml)) (k : PyKey) (v : Yaml) :
    ∀ e ∈ dictSet es k v, e = (k, v) ∨ e ∈ es := by
  induction es with
  | nil => simp [dictSet]
  | cons e2 es ih =>
    intro e he
    by_cases h : e2.1 = k
    · simp [dictSet, h] at he
      rcases he with he | he
      · left; simp [he]
      · right; exact List.mem_cons_of_mem _ he
    · simp [dictSet, h] at he
      rcases he with he | he
      · right; simp [he]
      · rcases ih e he with h2 | h2
        · left; exact h2
        · right; exact List.mem_cons_of_mem _ h2

theorem stringifyResponses_keys (r : Yaml) :
    ∀ e ∈ stringifyResponses r, e.1.isStr := by
  have aux : ∀ (rs : List (PyKey × Yaml)) (acc : List (PyKey × Yaml)),
      (∀ e ∈ acc, e.1.isStr) →
      ∀ e ∈ rs.foldl (fun acc e => dictSet acc (.s e.1.pyStr) e.2) acc, e.1.isStr := by
    intro rs
    induction rs with
    | nil => intro acc hacc; simpa using hacc
    | cons r2 rs ih =>
      intro acc hacc e he
      refine ih (dictSet acc (.s r2.1.pyStr) r2.2) ?_ e he
      intro e2 he2
      rcases mem_dictSet _ _ _ e2 he2 with h | h
      · simp [h, PyKey.isStr]
      · exact hacc e2 h
  exact aux r.entries [] (by simp)


theorem stringifyResponses_all_isStr (r : Yaml) :
    (stringifyResponses r).all (fun e => e.1.isStr) = true := by
  rw [List.all_eq_true]
  intro e he
  exact stringifyResponses_keys r e he

theorem compatMethod_check (mk : PyKey) (md : Yaml) (hpar : ¬ mk = PyKey.s "parameters")
    (hdict : md.isDict = true) :
    (decide (mk = PyKey.s "parameters") || !(compatMethod mk md).isDict ||
      ((compatMethod mk md).getD "responses" (.dict [])).entries.all (fun r2 => r2.1.isStr)) = true := by
  have hstep : compatMethod mk md =
      .dict (dictSet md.entries (.s "responses")
        (.dict (stringifyResponses (md.getD "responses" (.dict []))))) := by
    simp [compatMethod, hpar, hdict]
  rw [hstep]
  simp [Yaml.getD, Yaml.get?, mlookup, dictLookup_dictSet_self, Yaml.entries,
    stringifyResponses_all_isStr]

/-- Every response status-code key under every operation of the tree is a
string key, as a decidable check (mirrors the quantification of claim
C6 over the normalised tree). -/
def allRespKeysStr (doc : Yaml) : Bool :=
  (doc.getD "paths" (.dict [])).entries.all (fun pe =>
    pe.2.entries.all (fun me =>
      me.1 = .s "parameters" || !me.2.isDict
        || (me.2.getD "responses" (.dict [])).entries.all (fun r2 => r2.1.isStr)))

theorem compat_get_paths (es : List (PyKey × Yaml)) :
    dictLookup (es.map (fun e =>
        (e.1, if e.1 = PyKey.s "paths" then compatPaths e.2 else e.2))) (.s "paths")
      = (dictLookup es (.s "paths")).map compatPaths := by
  rw [dictLookup_map_entry es (fun k v => if k = PyKey.s "paths" then compatPaths v else v)]
  cases dictLookup es (.s "paths") <;> simp

/-- C6: `compatibility_layer` applied to a mapping input (well-formed in the
sense of `compatWF`, so that Python walks it without raising) returns a tree
in which every response status-code key under every operation's `responses`
mapping is a string key, and applied to any non-mapping input returns the
input unchanged.  (`compatWF` is not needed by the model, which totalises
the raising cases; it restricts the statement to documents on which the
Python source actually returns.) -/
theorem c6_compatibility_layer_normalises :
    (∀ doc : Yaml, compatWF doc = true →
      allRespKeysStr (compatibility_layer doc) = true)
    ∧ (∀ y : Yaml, ¬ y.isDict → compatibility_layer y = y) := by
  constructor
  · intro doc _hwf
    match doc with
    | .str _ => rfl
    | .int _ => rfl
    | .null => rfl
    | .list _ => rfl
    | .dict es =>
      simp only [compatibility_layer, allRespKeysStr, Yaml.getD, Yaml.get?, mlookup]
      rw [compat_get_paths]
      cases hp : dictLookup es (.s "paths") with
      | none => rfl
      | some pv =>
        rw [show Option.map compatPaths (some pv) = some (compatPaths pv) from rfl,
          show (some (compatPaths pv)).getD (Yaml.dict []) = compatPaths pv from rfl]
        match pv with
        | .str _ => simp [compatPaths, Yaml.entries]
        | .int _ => simp [compatPaths, Yaml.entries]
        | .null => simp [compatPaths, Yaml.entries]
        | .list _ => simp [compatPaths, Yaml.entries]
        | .dict pes =>
          simp only [compatPaths, Yaml.entries, List.all_map, List.all_eq_true, Function.comp]
          intro pe _hpe
          match hme : pe.2 with
          | .str _ => simp [compatMethods, Yaml.entries]
          | .int _ => simp [compatMethods, Yaml.entries]
          | .null => simp [compatMethods, Yaml.entries]
          | .list _ => simp [compatMethods, Yaml.entries]
          | .dict mes =>
            simp only [compatMethods]
            intro me hmem
            rw [List.mem_map] at hmem
            obtain ⟨me0, _hme0, rfl⟩ := hmem
            by_cases hpar : me0.1 = PyKey.s "parameters"
            · simp [hpar]
            · by_cases hdict : me0.2.isDict
              · exact compatMethod_check me0.1 me0.2 hpar hdict
              · simp [compatMethod, hpar, hdict]
  · intro y hy
    match y with
    | .str _ => rfl
    | .int _ => rfl
    | .null => rfl
    | .list _ => rfl
    | .dict _ => exact absurd rfl hy

/-! ## C10 -/

theorem compat_lookup_ne (es : List (PyKey × Yaml)) (k : PyKey) (hk : k ≠ PyKey.s "paths") :
    mlookup (compatibility_layer (.dict es)) k = dictLookup es k := by
  simp only [compatibility_layer, mlookup]
  rw [dictLookup_map_entry es (fun k v => if k = PyKey.s "paths" then compatPaths v else v)]
  cases dictLookup es k <;> simp [hk]

theorem compat_lookup_paths (es : List (PyKey × Yaml)) :
    mlookup (compatibility_layer (.dict es)) (.s "paths")
      = (dictLookup es (.s "paths")).map compatPaths := by
  simp only [compatibility_layer, mlookup]
  exact compat_get_paths es

theorem compatPaths_lookup (pes : List (PyKey × Yaml)) (k : PyKey) :
    mlookup (compatPaths (.dict pes)) k = (dictLookup pes k).map compatMethods := by
  simp only [compatPaths, mlookup]
  exact dictLookup_map_entry pes (fun _ v => compatMethods v) k

theorem compatMethods_lookup (mes : List (PyKey × Yaml)) (k : PyKey) :
    mlookup (compatMethods (.dict mes)) k = (dictLookup mes k).map (compatMethod k) := by
  simp only [compatMethods, mlookup]
  exact dictLookup_map_entry mes compatMethod k

/-- C10: on a mapping input (well-formed per `compatWF`, with a path `pk`
whose method table binds `mk ≠ 'parameters'` to a mapping with no
`responses` key), `compatibility_layer` leaves every other top-level field
unchanged, rewrites every mapping-valued non-`parameters` method entry by
assigning it a fresh stringified `responses` mapping, inserts an empty
`responses` mapping into the chosen method, leaves the method's other
fields unchanged, and therefore returns a tree that is not structurally
equal to the input.  (Python performs this mutation in place; the embedding
exhibits the resulting tree.) -/
theorem c10_compat_inserts_responses (es pes mes des : List (PyKey × Yaml)) (pk mk : PyKey)
    (_hwf : compatWF (.dict es) = true)
    (hp : dictLookup es (.s "paths") = some (.dict pes))
    (hpk : dictLookup pes pk = some (.dict mes))
    (hmk : dictLookup mes mk = some (.dict des))
    (hpar : mk ≠ PyKey.s "parameters")
    (hresp : dictLookup des (.s "responses") = none) :
    (∀ k, k ≠ PyKey.s "paths" →
      mlookup (compatibility_layer (.dict es)) k = dictLookup es k)
    ∧ (∀ (pk2 mk2 : PyKey) (mes2 md2 : List (PyKey × Yaml)),
        dictLookup pes pk2 = some (.dict mes2) →
        dictLookup mes2 mk2 = some (.dict md2) →
        mk2 ≠ PyKey.s "parameters" →
        (((mlookup (compatibility_layer (.dict es)) (.s "paths")).bind
            (fun p => mlookup p pk2)).bind (fun m => mlookup m mk2))
          = some (.dict (dictSet md2 (.s "responses")
              (.dict (stringifyResponses ((Yaml.dict md2).getD "responses" (.dict [])))))))
    ∧ (((mlookup (compatibility_layer (.dict es)) (.s "paths")).bind
          (fun p => mlookup p pk)).bind (fun m => mlookup m mk)
        = some (.dict (dictSet des (.s "responses") (.dict []))))
    ∧ (dictLookup (dictSet des (.s "responses") (.dict [])) (.s "responses")
        = some (.dict []))
    ∧ (∀ k, k ≠ PyKey.s "responses" →
        dictLookup (dictSet des (.s "responses") (.dict [])) k = dictLookup des k)
    ∧ compatibility_layer (.dict es) ≠ .dict es := by
  have hgen : ∀ (pk2 mk2 : PyKey) (mes2 md2 : List (PyKey × Yaml)),
      dictLookup pes pk2 = some (.dict mes2) →
      dictLookup mes2 mk2 = some (.dict md2) →
      mk2 ≠ PyKey.s "parameters" →
      (((mlookup (compatibility_layer (.dict es)) (.s "paths")).bind
          (fun p => mlookup p pk2)).bind (fun m => mlookup m mk2))
        = some (.dict (dictSet md2 (.s "responses")
            (.dict (stringifyResponses ((Yaml.dict md2).getD "responses" (.dict [])))))) := by
    intro pk2 mk2 mes2 md2 hpk2 hmk2 hpar2
    rw [compat_lookup_paths, hp]
    simp only [Option.map, Option.bind]
    rw [compatPaths_lookup, hpk2]
    simp only [Option.map, Option.bind]
    rw [compatMethods_lookup, hmk2]
    simp only [Option.map]
    have : compatMethod mk2 (.dict md2) =
        .dict (dictSet md2 (.s "responses")
          (.dict (stringifyResponses ((Yaml.dict md2).getD "responses" (.dict []))))) := by
      simp [compatMethod, hpar2, Yaml.isDict, Yaml.entries]
    rw [this]
  have hchosen : (((mlookup (compatibility_layer (.dict es)) (.s "paths")).bind
        (fun p => mlookup p pk)).bind (fun m => mlookup m mk)
      = some (.dict (dictSet des (.s "responses") (.dict [])))) := by
    have := hgen pk mk mes des hpk hmk hpar
    rw [this]
    have hd : (Yaml.dict des).getD "responses" (.dict []) = .dict [] := by
      simp [Yaml.getD, Yaml.get?, mlookup, hresp]
    rw [hd]
    rfl
  refine ⟨fun k hk => compat_lookup_ne es k hk, hgen, hchosen,
    dictLookup_dictSet_self _ _ _, fun k hk => dictLookup_dictSet_ne _ _ _ _ hk, ?_⟩
  intro heq
  have hdoc : (((mlookup (Yaml.dict es) (.s "paths")).bind
      (fun p => mlookup p pk)).bind (fun m => mlookup m mk)) = some (.dict des) := by
    simp only [mlookup, hp, Option.bind, hpk, hmk]
  rw [heq, hdoc] at hchosen
  have hde : Yaml.dict des = Yaml.dict (dictSet des (.s "responses") (.dict [])) :=
    Option.some.inj hchosen
  have hde2 : des = dictSet des (.s "responses") (.dict []) := by
    injection hde
  have hlk := dictLookup_dictSet_self des (PyKey.s "responses") (Yaml.dict [])
  rw [← hde2, hresp] at hlk
  exact Option.noConfusion hlk

/-- A document resembling the repository's helloworld test fixture:
`basePath` `/v1`, one path with a `post` operation whose `200` response
(integer key) has a string-typed schema. -/
def sampleDoc : Yaml := .dict [
  (.s "swagger", .str "2.0"),
  (.s "basePath", .str "/v1"),
  (.s "paths", .dict [
    (.s "/greeting/{name}", .dict [
      (.s "post", .dict [
        (.s "responses", .dict [
          (.i 200, .dict [(.s "schema", .dict [(.s "type", .str "string")])])])])])])]

theorem c6_witness :
    allRespKeysStr (compatibility_layer sampleDoc) = true
      ∧ compatibility_layer (.str "x") = .str "x" :=
  ⟨c6_compatibility_layer_normalises.1 sampleDoc (by decide),
   c6_compatibility_layer_normalises.2 (.str "x") (by decide)⟩

theorem c10_witness :
    compatibility_layer
        (.dict [(.s "paths", .dict [(.s "/p", .dict [(.s "get", .dict [])])])])
      ≠ .dict [(.s "paths", .dict [(.s "/p", .dict [(.s "get", .dict [])])])] :=
  (c10_compat_inserts_responses
    [(.s "paths", .dict [(.s "/p", .dict [(.s "get", .dict [])])])]
    [(.s "/p", .dict [(.s "get", .dict [])])]
    [(.s "get", .dict [])]
    [] (.s "/p") (.s "get")
    (by decide) rfl rfl rfl (by decide) rfl).2.2.2.2.2

/-! ## Order-theoretic facts about the issue comparison -/

theorem listLtB_asymm : ∀ (a b : List Char), listLtB a b = true → listLtB b a = false
  | [], [] => by simp [listLtB]
  | [], _ :: _ => by simp [listLtB]
  | _ :: _, [] => by simp [listLtB]
  | a :: as, b :: bs => by
    intro h
    simp only [listLtB] at h ⊢
    by_cases h1 : a.toNat < b.toNat
    · have h2 : ¬ b.toNat < a.toNat := by omega
      simp [h1, h2]
    · by_cases h2 : b.toNat < a.toNat
      · simp [h1, h2] at h
      · simp [h1, h2] at h ⊢
        exact listLtB_asymm as bs h

theorem listLtB_trans_neg : ∀ (x y z : List Char), listLtB x y = true →
    listLtB z y = false → listLtB z x = false
  | [], [], _ => by simp [listLtB]
  | [], _ :: _, [] => by intro _ _; rfl
  | [], _ :: _, _ :: _ => by
    intro _ _
    rfl
  | _ :: _, [], _ => by simp [listLtB]
  | _ :: _, _ :: _, [] => by
    intro _ h2
    simp [listLtB] at h2
  | x :: xs, y :: ys, z :: zs => by
    intro h1 h2
    simp only [listLtB] at h1 h2 ⊢
    by_cases a1 : x.toNat < y.toNat
    · by_cases a2 : z.toNat < y.toNat
      · simp [a2] at h2
      · by_cases a3 : y.toNat < z.toNat
        · have b1 : ¬ z.toNat < x.toNat := by omega
          have b2 : x.toNat < z.toNat := by omega
          simp [b1, b2]
        · have hzy : z.toNat = y.toNat := by omega
          have b1 : ¬ z.toNat < x.toNat := by omega
          have b2 : x.toNat < z.toNat := by omega
          simp [b1, b2]
    · by_cases a1b : y.toNat < x.toNat
      · simp [a1, a1b] at h1
      · have hxy : x.toNat = y.toNat := by omega
        simp [a1, a1b] at h1
        by_cases a2 : z.toNat < y.toNat
        · simp [a2] at h2
        · by_cases a3 : y.toNat < z.toNat
          · have b1 : ¬ z.toNat < x.toNat := by omega
            have b2 : x.toNat < z.toNat := by omega
            simp [b1, b2]
          · have hzy : z.toNat = y.toNat := by omega
            simp [a2, a3] at h2
            have b1 : ¬ z.toNat < x.toNat := by omega
            have b2 : ¬ x.toNat < z.toNat := by omega
            simp [b1, b2]
            exact listLtB_trans_neg xs ys zs h1 h2

theorem char_eq_of_toNat {a b : Char} (h : a.toNat = b.toNat) : a = b :=
  Char.ext (UInt32.ext h)

theorem listLtB_antisymm : ∀ (a b : List Char), listLtB a b = false →
    listLtB b a = false → a = b
  | [], [] => by simp
  | [], _ :: _ => by simp [listLtB]
  | _ :: _, [] => by intro _ h2; simp [listLtB] at h2
  | a :: as, b :: bs => by
    intro h1 h2
    simp only [listLtB] at h1 h2
    by_cases c1 : a.toNat < b.toNat
    · simp [c1] at h1
    · by_cases c2 : b.toNat < a.toNat
      · simp [c2] at h2
      · have hab : a.toNat = b.toNat := by omega
        simp [c1, c2] at h1 h2
        rw [char_eq_of_toNat hab, listLtB_antisymm as bs h1 h2]

theorem strLtB_asymm {a b : String} (h : strLtB a b = true) : strLtB b a = false :=
  listLtB_asymm a.data b.data h

theorem strLtB_trans_neg {x y z : String} (h1 : strLtB x y = true)
    (h2 : strLtB z y = false) : strLtB z x = false :=
  listLtB_trans_neg x.data y.data z.data h1 h2

theorem strLtB_antisymm {a b : String} (h1 : strLtB a b = false)
    (h2 : strLtB b a = false) : a = b :=
  String.ext (listLtB_antisymm a.data b.data h1 h2)

/-- The sortedness relation established by a successful `sorted` call:
`b` is not less than `a` under Python tuple comparison (in particular the
comparison of the two is defined). -/
def issueLe (a b : Issue) : Prop := pyIssueLt b a = .ok false

theorem yamlLt_asymm {a b : Yaml} (h : yamlLt? a b = .ok true) :
    yamlLt? b a = .ok false := by
  cases a <;> cases b <;> simp [yamlLt?] at h ⊢
  · exact strLtB_asymm h
  · omega

theorem yamlLt_trans_neg {x y z : Yaml} (h1 : yamlLt? x y = .ok true)
    (h2 : yamlLt? z y = .ok false) : yamlLt? z x = .ok false := by
  cases x <;> cases y <;> cases z <;> simp [yamlLt?] at h1 h2 ⊢
  · exact strLtB_trans_neg h1 h2
  · omega

theorem yamlLe_antisymm {a b : Yaml} (h1 : yamlLt? a b = .ok false)
    (h2 : yamlLt? b a = .ok false) : a = b := by
  cases a <;> cases b <;> simp [yamlLt?] at h1 h2 ⊢
  · exact strLtB_antisymm h1 h2
  · omega

theorem issueLt_asymm {a b : Issue} (h : pyIssueLt a b = .ok true) :
    pyIssueLt b a = .ok false := by
  by_cases hl : a.location = b.location
  · by_cases hm : a.message = b.message
    · simp [pyIssueLt, hl, hm] at h
      simp [pyIssueLt, hl.symm, hm.symm]
      exact strLtB_asymm h
    · simp [pyIssueLt, hl, hm] at h
      simp [pyIssueLt, hl.symm, Ne.symm hm]
      exact strLtB_asymm h
  · simp [pyIssueLt, hl] at h
    simp [pyIssueLt, Ne.symm hl]
    exact yamlLt_asymm h

theorem issueLt_trans_neg {x y z : Issue} (h1 : pyIssueLt x y = .ok true)
    (h2 : pyIssueLt z y = .ok false) : pyIssueLt z x = .ok false := by
  by_cases hxy : x.location = y.location
  · by_cases hzy : z.location = y.location
    · have hzx : z.location = x.location := hzy.trans hxy.symm
      simp [pyIssueLt, hxy, hzy, hzx] at h1 h2 ⊢
      by_cases hm1 : x.message = y.message
      · by_cases hm2 : z.message = y.message
        · have hm3 : z.message = x.message := hm2.trans hm1.symm
          simp [hm1, hm2, hm3] at h1 h2 ⊢
          exact strLtB_trans_neg h1 h2
        · have hm3 : ¬ z.message = x.message := fun hh => hm2 (hh.trans hm1)
          simp [hm1, hm2, hm3] at h1 h2 ⊢
          exact h2
      · by_cases hm2 : z.message = y.message
        · have hm3 : ¬ z.message = x.message := fun hh => hm1 (hm2.symm.trans hh).symm
          simp [hm1, hm2, hm3, Ne.symm hm1] at h1 h2 ⊢
          exact strLtB_asymm h1
        · by_cases hm3 : z.message = x.message
          · simp [hm1, hm2, hm3] at h1 h2 ⊢
            rw [h1] at h2
            simp at h2
          · simp [hm1, hm2, hm3] at h1 h2 ⊢
            exact strLtB_trans_neg h1 h2
    · have hzx : ¬ z.location = x.location := fun hh => hzy (hh.trans hxy)
      simp only [pyIssueLt, if_neg hzy] at h2
      simp only [pyIssueLt, if_neg hzx]
      rw [hxy]
      exact h2
  · by_cases hzy : z.location = y.location
    · have hzx : ¬ z.location = x.location := fun hh => hxy (hzy.symm.trans hh).symm
      simp only [pyIssueLt, if_neg hxy] at h1
      simp only [pyIssueLt, if_neg hzx]
      rw [hzy]
      exact yamlLt_asymm h1
    · by_cases hzx : z.location = x.location
      · simp only [pyIssueLt, if_neg hxy] at h1
        simp only [pyIssueLt, if_neg hzy] at h2
        rw [hzx, h1] at h2
        simp at h2
      · simp only [pyIssueLt, if_neg hxy] at h1
        simp only [pyIssueLt, if_neg hzy] at h2
        simp only [pyIssueLt, if_neg hzx]
        exact yamlLt_trans_neg h1 h2

theorem issueLe_antisymm {a b : Issue} (h1 : pyIssueLt b a = .ok false)
    (h2 : pyIssueLt a b = .ok false) : a = b := by
  by_cases hl : a.location = b.location
  · by_cases hm : a.message = b.message
    · simp [pyIssueLt, hl.symm, hm.symm] at h1
      simp [pyIssueLt, hl, hm] at h2
      obtain ⟨la, ma, ga⟩ := a
      obtain ⟨lb, mb, gb⟩ := b
      simp at hl hm ⊢
      exact ⟨hl, hm, strLtB_antisymm h2 h1⟩
    · simp [pyIssueLt, hl.symm, Ne.symm hm] at h1
      simp [pyIssueLt, hl, hm] at h2
      exact absurd (strLtB_antisymm h2 h1) hm
  · simp [pyIssueLt, Ne.symm hl] at h1
    simp [pyIssueLt, hl] at h2
    exact absurd (yamlLe_antisymm h2 h1) hl

theorem pyInsert_perm (x : Issue) : ∀ (ys zs : List Issue),
    pyInsert x ys = .ok zs → zs.Perm (x :: ys) := by
  intro ys
  induction ys with
  | nil =>
    intro zs h
    simp [pyInsert] at h
    rw [← h]
  | cons y ys ih =>
    intro zs h
    rw [pyInsert] at h
    cases hcmp : pyIssueLt x y with
    | error e => rw [hcmp] at h; simp at h
    | ok b =>
      rw [hcmp] at h
      cases b with
      | true =>
        simp at h
        rw [← h]
      | false =>
        cases hins : pyInsert x ys with
        | error e => rw [hins] at h; simp at h
        | ok t =>
          rw [hins] at h
          simp at h
          rw [← h]
          exact ((ih t hins).cons y).trans (List.Perm.swap x y ys)

theorem pyInsert_sorted (x : Issue) : ∀ (ys zs : List Issue),
    ys.Pairwise issueLe → pyInsert x ys = .ok zs → zs.Pairwise issueLe := by
  intro ys
  induction ys with
  | nil =>
    intro zs _ h
    simp [pyInsert] at h
    rw [← h]
    simp
  | cons y ys ih =>
    intro zs hs h
    rw [pyInsert] at h
    cases hcmp : pyIssueLt x y with
    | error e => rw [hcmp] at h; simp at h
    | ok b =>
      rw [hcmp] at h
      cases b with
      | true =>
        simp at h
        rw [← h]
        refine List.Pairwise.cons ?_ hs
        intro z hz
        rcases List.mem_cons.mp hz with rfl | hz
        · exact issueLt_asymm hcmp
        · exact issueLt_trans_neg hcmp (List.rel_of_pairwise_cons hs hz)
      | false =>
        cases hins : pyInsert x ys with
        | error e => rw [hins] at h; simp at h
        | ok t =>
          rw [hins] at h
          simp at h
          rw [← h]
          refine List.Pairwise.cons ?_ (ih t (List.Pairwise.of_cons hs) hins)
          intro z hz
          rcases List.mem_cons.mp ((pyInsert_perm x ys t hins).subset hz) with rfl | hz
          · exact hcmp
          · exact List.rel_of_pairwise_cons hs hz

theorem pySorted_perm : ∀ (l l2 : List Issue), pySorted l = .ok l2 → l2.Perm l := by
  intro l
  induction l with
  | nil =>
    intro l2 h
    simp [pySorted] at h
    rw [← h]
  | cons x xs ih =>
    intro l2 h
    rw [pySorted] at h
    cases hs : pySorted xs with
    | error e => rw [hs] at h; simp at h
    | ok t =>
      rw [hs] at h
      exact (pyInsert_perm x t l2 h).trans ((ih t hs).cons x)

theorem pySorted_sorted : ∀ (l l2 : List Issue), pySorted l = .ok l2 →
    l2.Pairwise issueLe := by
  intro l
  induction l with
  | nil =>
    intro l2 h
    simp [pySorted] at h
    simp [h]
  | cons x xs ih =>
    intro l2 h
    rw [pySorted] at h
    cases hs : pySorted xs with
    | error e => rw [hs] at h; simp at h
    | ok t =>
      rw [hs] at h
      exact pyInsert_sorted x t l2 (ih t hs) h

/-! ## C2 and C7 -/

theorem runLinterWith_ok_sorted (rules : List NamedRule)
    (validate : Yaml → Except String Resolver) (doc : Yaml) (l : List Issue)
    (hrun : runLinterWith rules validate doc = .ok l) : l.Pairwise issueLe := by
  rw [runLinterWith] at hrun
  cases hv : validate (compatibility_layer doc) with
  | error e =>
    rw [hv] at hrun
    simp at hrun
    simp [← hrun]
  | ok r =>
    rw [hv] at hrun
    exact pySorted_sorted _ _ hrun

theorem runLinterWith_perm_eq (rules rules2 : List NamedRule)
    (validate : Yaml → Except String Resolver) (doc : Yaml) (l l2 : List Issue)
    (hperm : rules.Perm rules2)
    (hrun : runLinterWith rules validate doc = .ok l)
    (hrun2 : runLinterWith rules2 validate doc = .ok l2) : l2 = l := by
  rw [runLinterWith] at hrun hrun2
  cases hv : validate (compatibility_layer doc) with
  | error e =>
    rw [hv] at hrun hrun2
    simp at hrun hrun2
    rw [← hrun, ← hrun2]
  | ok r =>
    rw [hv] at hrun hrun2
    have hcoll : (collectIssues rules (compatibility_layer doc) r).Perm
        (collectIssues rules2 (compatibility_layer doc) r) := by
      unfold collectIssues
      exact hperm.flatMap_right _
    have hp1 := pySorted_perm _ _ hrun
    have hp2 := pySorted_perm _ _ hrun2
    haveI : IsAntisymm Issue issueLe := ⟨fun a b h1 h2 => issueLe_antisymm h1 h2⟩
    exact List.eq_of_perm_of_sorted (hp2.trans (hcoll.symm.trans hp1.symm))
      (pySorted_sorted _ _ hrun2) (pySorted_sorted _ _ hrun)

/-- C2: for every document that passes schema validation (the validator
returns a resolver), any list `run_linter` returns is sorted ascending by
Python's comparison of the Issue tuple's fields in declared order
(location, then message, then guideline), and the returned list does not
depend on the order in which rules were registered or executed: a run with
any permutation of the rule list that returns a list returns the same
list. -/
theorem c2_run_linter_output_sorted (rules : List NamedRule)
    (validate : Yaml → Except String Resolver) (doc : Yaml) (r : Resolver)
    (_hv : validate (compatibility_layer doc) = .ok r)
    (l : List Issue) (hrun : runLinterWith rules validate doc = .ok l) :
    l.Pairwise issueLe
    ∧ ∀ rules2, rules.Perm rules2 →
        ∀ l2, runLinterWith rules2 validate doc = .ok l2 → l2 = l :=
  ⟨runLinterWith_ok_sorted rules validate doc l hrun,
   fun rules2 hperm l2 hrun2 =>
     runLinterWith_perm_eq rules rules2 validate doc l l2 hperm hrun hrun2⟩

/-- C7: `run_linter` is deterministic — two runs on the same input return
the same issue list — and its result is independent of the iteration order
in which the rules are discovered and executed: a run with any permutation
of the discovered rule list that returns a list returns the same list. -/
theorem c7_run_linter_deterministic (ie : Inflect)
    (validate : Yaml → Except String Resolver) (doc : Yaml) :
    (∀ l l2, run_linter ie validate doc = .ok l →
      run_linter ie validate doc = .ok l2 → l = l2)
    ∧ ∀ rules2, (linterRules ie).Perm rules2 →
        ∀ l l2, run_linter ie validate doc = .ok l →
          runLinterWith rules2 validate doc = .ok l2 → l2 = l :=
  ⟨fun _ _ h1 h2 => Except.ok.inj (h1.symm.trans h2),
   fun rules2 hperm l l2 h1 h2 =>
     runLinterWith_perm_eq (linterRules ie) rules2 validate doc l l2 hperm h1 h2⟩

/-- The issues `run_linter` reports on `sampleDoc` (matching the
repository's helloworld test expectations). -/
def sampleIssues : List Issue := [
  ⟨.str "basePath", "", lint_base_path_doc⟩,
  ⟨.str "paths/\"/greeting/{name}\"", "\"greeting\" is not in plural form",
    lint_plural_resource_names_doc⟩,
  ⟨.str "paths/\"/greeting/{name}\"",
    "the POST method is used on a path ending with a path variable",
    lint_http_methods_doc⟩,
  ⟨.str "paths/\"/greeting/{name}\"/post/responses/200", "",
    lint_response_objects_doc⟩]

theorem c2_witness : List.Pairwise issueLe sampleIssues :=
  (c2_run_linter_output_sorted (linterRules witnessInflect) acceptAll sampleDoc
    witnessResolver rfl sampleIssues rfl).1

theorem c7_witness : sampleIssues = sampleIssues :=
  (c7_run_linter_deterministic witnessInflect acceptAll sampleDoc).2
    (linterRules witnessInflect).reverse (List.reverse_perm _).symm
    sampleIssues sampleIssues rfl rfl

/-! ## C3 -/

/-- A document with one operation parameter of type `query` and no `name`. -/
def c3doc : Yaml := .dict [(.s "paths", .dict [(.s "/pets", .dict [(.s "get", .dict [
  (.s "parameters", .list [.dict [(.s "type", .str "query")]])])])])]

/-- C3 counterexample: the document holds a `query`-typed parameter with no
`name`, yet `lint_query_params` yields nothing for it — the missing name
defaults to `''`, which matches `^[a-z0-9_]*$`, so the parameter is
silently accepted (the claim says an issue is yielded). -/
theorem c3_counterexample_unnamed_query_param :
    lint_query_params c3doc witnessResolver = []
    ∧ (Yaml.dict [(.s "type", .str "query")]).get? "name" = none
    ∧ (Yaml.dict [(.s "type", .str "query")]).get? "type" = some (.str "query") :=
  ⟨rfl, rfl, rfl⟩

/-- C3 as amended: a mapping parameter of type `query` with no `$ref` and no
`name` is treated as having the empty name, which matches the pattern
`^[a-z0-9_]*$`; the per-parameter check therefore yields nothing (and does
not crash the run). -/
theorem c3_amended_unnamed_query_param_skipped (r : Resolver) (param : Yaml)
    (_hd : param.isDict = true) (href : param.get? "$ref" = none)
    (hname : param.get? "name" = none)
    (htype : param.get? "type" = some (.str "query")) :
    queryParamYield r param = [] := by
  unfold queryParamYield
  have h1 : param.hasKey "$ref" = false := by simp [Yaml.hasKey, href]
  simp [h1, htype, Yaml.getD, hname, queryNameOk, queryTailOk]

theorem c3_witness : queryParamYield witnessResolver (.dict [(.s "type", .str "query")]) = [] :=
  c3_amended_unnamed_query_param_skipped witnessResolver _ rfl rfl rfl rfl

/-! ## C4 -/

/-- A document with one `query` parameter whose name `fooBar` violates the
casing rule. -/
def c4doc : Yaml := .dict [(.s "paths", .dict [(.s "/pets", .dict [(.s "get", .dict [
  (.s "parameters", .list [.dict [(.s "type", .str "query"), (.s "name", .str "fooBar")]])])])])]

/-- C4 failing input: on `c4doc` the whole run returns exactly one Issue
whose `location` is the parameter *mapping* itself (`lint_query_params`
yields `param`, not a location string), refuting the claim that every
returned Issue has a string location in the documented formats. -/
theorem c4_query_param_location_is_mapping :
    run_linter witnessInflect acceptAll c4doc =
      .ok [⟨.dict [(.s "type", .str "query"), (.s "name", .str "fooBar")], "",
        lint_query_params_doc⟩]
    ∧ (Yaml.dict [(.s "type", .str "query"), (.s "name", .str "fooBar")]).isDict = true :=
  ⟨rfl, rfl⟩

/-! ## C5 -/

/-- A document whose single path template lacks the leading slash. -/
def c5doc : Yaml := .dict [(.s "paths", .dict [(.s "pets", .dict [])])]

/-- C5 counterexample: the path `pets` contains no character outside
lowercase/digits/`.`/`-`/`/` (every character satisfies `pathChar`), yet
`lint_path_names` yields an issue for it, because the pattern
`^/[/a-z0-9.-]*$` also requires the leading `/`.  This refutes the claim's
"if and only if". -/
theorem c5_counterexample_path_without_slash :
    lint_path_names c5doc witnessResolver = [.bare (.str "paths/\"pets\"")]
    ∧ (stripVariables "pets").data.all pathChar = true :=
  ⟨rfl, rfl⟩

theorem pathLoc_inj {p q : String}
    (h : "paths/\"" ++ p ++ "\"" = "paths/\"" ++ q ++ "\"") : p = q := by
  have hd := congrArg String.data h
  simp at hd
  exact String.ext hd

/-- C5 as amended: for every path template (a string key of a mapping-valued
`paths`), `lint_path_names` yields `paths/"<path>"` iff the path with its
`{variable}` segments stripped fails to match `^/[/a-z0-9.-]*$` — that is,
iff it does not consist of a leading `/` followed by characters from
lowercase letters, digits, `.`, `-`, `/` (with Python's `$` also accepting
one trailing newline). -/
theorem c5_amended_path_naming_iff (spec : Yaml) (r : Resolver) (path : String)
    (_hpaths : (spec.getD "paths" (.dict [])).isDict = true) :
    (RuleYield.bare (.str ("paths/\"" ++ path ++ "\"")) ∈ lint_path_names spec r)
    ↔ ((∃ v, (PyKey.s path, v) ∈ (spec.getD "paths" (.dict [])).entries)
        ∧ pathNameOk (stripVariables path) = false) := by
  unfold lint_path_names
  constructor
  · intro hmem
    rw [List.mem_filterMap] at hmem
    obtain ⟨⟨k, v⟩, hpe, hout⟩ := hmem
    cases k with
    | i n => simp at hout
    | s p =>
      by_cases hok : pathNameOk (stripVariables p)
      · simp [hok] at hout
      · simp [hok] at hout
        have hp : p = path := pathLoc_inj hout
        rw [hp] at hpe
        rw [hp] at hok
        exact ⟨⟨v, hpe⟩, by simpa using hok⟩
  · rintro ⟨⟨v, hv⟩, hbad⟩
    rw [List.mem_filterMap]
    refine ⟨(.s path, v), hv, ?_⟩
    simp [hbad]

theorem c5_witness :
    (RuleYield.bare (.str ("paths/\"" ++ "PETS" ++ "\""))
        ∈ lint_path_names (.dict [(.s "paths", .dict [(.s "PETS", .dict [])])]) witnessResolver)
    ↔ ((∃ v, (PyKey.s "PETS", v)
          ∈ ((Yaml.dict [(.s "paths", .dict [(.s "PETS", .dict [])])]).getD "paths"
              (.dict [])).entries)
        ∧ pathNameOk (stripVariables "PETS") = false) :=
  c5_amended_path_naming_iff (.dict [(.s "paths", .dict [(.s "PETS", .dict [])])])
    witnessResolver "PETS" rfl

/-! ## C8 -/

theorem yamlSize_pos : ∀ y : Yaml, 1 ≤ yamlSize y
  | .str _ => le_refl 1
  | .int _ => le_refl 1
  | .null => le_refl 1
  | .list xs => by simp [yamlSize]
  | .dict es => by simp [yamlSize]

theorem mem_yamlEntriesSize : ∀ (es : List (PyKey × Yaml)) (e : PyKey × Yaml),
    e ∈ es → yamlSize e.2 + 1 ≤ yamlEntriesSize es := by
  intro es
  induction es with
  | nil => intro e he; simp at he
  | cons e2 es ih =>
    intro e he
    rcases List.mem_cons.mp he with rfl | he
    · simp [yamlEntriesSize]
    · have := ih e he
      simp [yamlEntriesSize]
      omega

theorem wlSize_append (a b : List (String × Yaml)) :
    wlSize (a ++ b) = wlSize a + wlSize b := by
  simp [wlSize]

theorem wlSize_cons (e : String × Yaml) (l : List (String × Yaml)) :
    wlSize (e :: l) = yamlSize e.2 + 1 + wlSize l := by
  simp [wlSize]

theorem wlSize_reverse (a : List (String × Yaml)) :
    wlSize a.reverse = wlSize a := by
  simp [wlSize, List.map_reverse, List.sum_reverse]

theorem wlSize_filterMap_le (name : String) :
    ∀ (es : List (PyKey × Yaml)) (f : PyKey × Yaml → Option (String × Yaml)),
    (∀ e r, f e = some r → r.2 = e.2) →
    wlSize (es.filterMap f) ≤ yamlEntriesSize es := by
  intro es
  induction es with
  | nil => intro f _; simp [wlSize, yamlEntriesSize]
  | cons e es ih =>
    intro f hf
    rw [List.filterMap_cons]
    cases hfe : f e with
    | none =>
      have := ih f hf
      simp [yamlEntriesSize]
      omega
    | some r =>
      have hr := hf e r hfe
      have := ih f hf
      simp [wlSize, yamlEntriesSize] at *
      rw [hr]
      omega

theorem propEntries_size : ∀ d : Yaml,
    propEntries d = [] ∨ yamlEntriesSize (propEntries d) + 2 ≤ yamlSize d := by
  intro d
  match d with
  | .str _ => left; rfl
  | .int _ => left; rfl
  | .null => left; rfl
  | .list _ => left; rfl
  | .dict es =>
    simp only [propEntries, Yaml.getD, Yaml.get?, mlookup]
    cases hp : dictLookup es (.s "properties") with
    | none => left; rfl
    | some v =>
      match v with
      | .str _ => left; rfl
      | .int _ => left; rfl
      | .null => left; rfl
      | .list _ => left; rfl
      | .dict ps =>
        right
        have hmem := mem_of_dictLookup es _ _ hp
        have hsz := mem_yamlEntriesSize es _ hmem
        simp only [yamlSize] at hsz ⊢
        simp only [Option.getD_some, Yaml.entries]
        omega

theorem propPushes_size (name : String) (d : Yaml) :
    wlSize (propPushes name d) ≤ yamlSize d := by
  have h1 : wlSize (propPushes name d) ≤ yamlEntriesSize (propEntries d) := by
    apply wlSize_filterMap_le name
    intro e r hfe
    simp only [propPushes] at hfe
    revert hfe
    match e with
    | (.s nm, v) =>
      intro hfe
      by_cases ho : isObjectTyped v
      · simp [ho] at hfe
        rw [← hfe]
      · simp [ho] at hfe
    | (.i n, v) => intro hfe; simp at hfe
  rcases propEntries_size d with h2 | h2
  · rw [h2] at h1
    have h0 : yamlEntriesSize [] = 0 := rfl
    omega
  · omega

theorem propPushes_size_rev_append (name : String) (d : Yaml) (rest : List (String × Yaml)) :
    wlSize ((propPushes name d).reverse ++ rest) < wlSize ((name, d) :: rest) := by
  rw [wlSize_append, wlSize_reverse, wlSize_cons]
  have h1 := propPushes_size name d
  have h2 : yamlSize ((name, d) : String × Yaml).2 = yamlSize d := rfl
  omega

theorem propLoop_complete : ∀ (fuel : Nat) (wl : List (String × Yaml)),
    wlSize wl < fuel → ∀ (p : String) (d : Yaml), (p, d) ∈ wl →
    ∀ (q : String) (e : Yaml), Desc (p, d) (q, e) →
    ∀ (k : String) (s : Yaml), (PyKey.s k, s) ∈ propEntries e → propNameOk k = false →
    RuleYield.bare (.str ("definitions/" ++ q ++ "/" ++ k)) ∈ propLoop fuel wl := by
  intro fuel
  induction fuel with
  | zero => intro wl hb; omega
  | succ fuel ih =>
    intro wl hb p d hmem q e hdesc k s hks hbad
    match wl, hmem with
    | (p1, d1) :: rest, hmem =>
      rw [propLoop]
      have hsmaller : wlSize ((propPushes p1 d1).reverse ++ rest) < fuel := by
        have := propPushes_size_rev_append p1 d1 rest
        omega
      rcases List.mem_cons.mp hmem with heq | hmem2
      · have hp1 : p1 = p := congrArg Prod.fst heq.symm
        have hd1 : d1 = d := congrArg Prod.snd heq.symm
        subst hp1
        subst hd1
        cases hdesc with
        | refl =>
          apply List.mem_append_left
          rw [propDirectIssues, List.mem_filterMap]
          exact ⟨(.s k, s), hks, by simp [hbad]⟩
        | step p d k2 s2 t hks2 htype hdesc2 =>
          apply List.mem_append_right
          refine ih _ hsmaller (p1 ++ "/" ++ k2) s2 ?_ q e hdesc2 k s hks hbad
          apply List.mem_append_left
          rw [List.mem_reverse, propPushes, List.mem_filterMap]
          exact ⟨(.s k2, s2), hks2, by simp [htype]⟩
      · apply List.mem_append_right
        exact ih _ hsmaller p d (List.mem_append_right _ hmem2) q e hdesc k s hks hbad

/-- C8: for every document (well-formed in the sense of `defsWF`, so that
Python's traversal does not raise), every property with a name failing
`^[a-z][a-z0-9_]*$` of every definition reachable from an object-typed
entry of `definitions` by descending through object-typed properties — at
any depth, via the worklist — produces the issue
`definitions/<definition path>/<property name>` in the output of
`lint_property_names`. -/
theorem c8_property_names_all_depths (doc : Yaml) (r : Resolver)
    (p0 : String) (d0 : Yaml) (q : String) (e : Yaml) (k : String) (s : Yaml)
    (_hwf : defsWF doc = true)
    (h0 : (p0, d0) ∈ startDefs doc)
    (hdesc : Desc (p0, d0) (q, e))
    (hks : (PyKey.s k, s) ∈ propEntries e)
    (hbad : propNameOk k = false) :
    RuleYield.bare (.str ("definitions/" ++ q ++ "/" ++ k))
      ∈ lint_property_names doc r := by
  rw [lint_property_names]
  refine propLoop_complete _ _ ?_ p0 d0 ?_ q e hdesc k s hks hbad
  · rw [wlSize_reverse]
    omega
  · rw [List.mem_reverse]
    exact h0

def c8lvl2 : Yaml := .dict [(.s "type", .str "object"),
  (.s "properties", .dict [(.s "BadName", .dict [(.s "type", .str "string")])])]

def c8lvl1 : Yaml := .dict [(.s "type", .str "object"),
  (.s "properties", .dict [(.s "lvl2", c8lvl2)])]

def c8foo : Yaml := .dict [(.s "type", .str "object"),
  (.s "properties", .dict [(.s "lvl1", c8lvl1)])]

/-- A document with an object-typed definition nesting object-typed
properties three levels deep, the deepest holding a badly-named
property. -/
def c8doc : Yaml := .dict [(.s "definitions", .dict [(.s "Foo", c8foo)])]

theorem c8_witness :
    RuleYield.bare (.str ("definitions/" ++ ("Foo" ++ "/" ++ "lvl1" ++ "/" ++ "lvl2")
        ++ "/" ++ "BadName"))
      ∈ lint_property_names c8doc witnessResolver :=
  c8_property_names_all_depths c8doc witnessResolver "Foo" c8foo
    ("Foo" ++ "/" ++ "lvl1" ++ "/" ++ "lvl2") c8lvl2 "BadName"
    (.dict [(.s "type", .str "string")])
    (by decide)
    (by decide)
    (Desc.step "Foo" c8foo "lvl1" c8lvl1 _ (by decide) (by decide)
      (Desc.step ("Foo" ++ "/" ++ "lvl1") c8lvl1 "lvl2" c8lvl2 _ (by decide) (by decide)
        (Desc.refl _)))
    (by decide)
    (by decide)

/-! ## C9 -/

theorem pyStr_stringifyKey (k : PyKey) : (stringifyKey k).pyStr = k.pyStr := by
  cases k <;> rfl

theorem stringifyResponses_strResponses (r : Yaml) :
    stringifyResponses (strResponses r) = stringifyResponses r := by
  match r with
  | .str _ => rfl
  | .int _ => rfl
  | .null => rfl
  | .list _ => rfl
  | .dict rs =>
    simp only [strResponses, stringifyResponses, Yaml.entries]
    have aux : ∀ (l : List (PyKey × Yaml)) (acc : List (PyKey × Yaml)),
        (l.map (fun e => (stringifyKey e.1, e.2))).foldl
            (fun acc e => dictSet acc (.s e.1.pyStr) e.2) acc
          = l.foldl (fun acc e => dictSet acc (.s e.1.pyStr) e.2) acc := by
      intro l
      induction l with
      | nil => intro acc; rfl
      | cons e l ih =>
        intro acc
        simp only [List.map_cons, List.foldl_cons, pyStr_stringifyKey]
        exact ih _
    exact aux rs []

theorem map_id_of_no_key (k : PyKey) (g : Yaml → Yaml) :
    ∀ (es : List (PyKey × Yaml)), (∀ e ∈ es, e.1 ≠ k) →
    es.map (fun e => (e.1, if e.1 = k then g e.2 else e.2)) = es := by
  intro es
  induction es with
  | nil => intro _; rfl
  | cons e es ih =>
    intro h
    have h1 : e.1 ≠ k := h e (List.mem_cons_self _ _)
    simp only [List.map_cons, if_neg h1, ih (fun e2 he2 => h e2 (List.mem_cons_of_mem _ he2))]

theorem nodup_no_key_tail (k : PyKey) (e : PyKey × Yaml) (es : List (PyKey × Yaml))
    (hnd : nodupKeysB (e :: es) = true) (hek : e.1 = k) : ∀ e2 ∈ es, e2.1 ≠ k := by
  intro e2 he2 hk2
  simp only [nodupKeysB, List.map_cons, decide_eq_true_eq] at hnd
  rw [List.nodup_cons] at hnd
  exact hnd.1 (hek ▸ hk2 ▸ List.mem_map_of_mem (fun e => e.1) he2)

theorem dictSet_map_same_key (k : PyKey) (g : Yaml → Yaml) (v : Yaml) :
    ∀ (es : List (PyKey × Yaml)), nodupKeysB es = true →
    dictSet (es.map (fun e => (e.1, if e.1 = k then g e.2 else e.2))) k v
      = dictSet es k v := by
  intro es
  induction es with
  | nil => intro _; rfl
  | cons e es ih =>
    intro hnd
    by_cases hek : e.1 = k
    · simp only [List.map_cons, dictSet, hek, if_pos rfl]
      rw [map_id_of_no_key k g es (nodup_no_key_tail k e es hnd hek)]
      simp
    · simp only [List.map_cons, dictSet, if_neg hek]
      have hnd2 : nodupKeysB es = true := by
        simp only [nodupKeysB, List.map_cons, decide_eq_true_eq] at hnd ⊢
        rw [List.nodup_cons] at hnd
        exact hnd.2
      rw [ih hnd2]

theorem compatMethod_strMethod (mk : PyKey) (md : Yaml)
    (hnd : md.isDict = true → nodupKeysB md.entries = true) :
    compatMethod mk (strMethod mk md) = compatMethod mk md := by
  by_cases hcond : (mk = PyKey.s "parameters" || !md.isDict) = true
  · rw [strMethod, if_pos hcond]
  · have hdict : md.isDict = true := by
      revert hcond
      cases md.isDict <;> simp
    match md with
    | .dict des =>
      have hnd2 := hnd rfl
      simp only [Yaml.entries] at hnd2
      have hstr : strMethod mk (.dict des) =
          .dict (des.map (fun e =>
            (e.1, if e.1 = PyKey.s "responses" then strResponses e.2 else e.2))) := by
        rw [strMethod, if_neg hcond]
        simp [Yaml.entries]
      rw [hstr]
      have hcond2 : ¬ ((mk = PyKey.s "parameters" ||
          !(Yaml.dict (des.map (fun e =>
            (e.1, if e.1 = PyKey.s "responses" then strResponses e.2 else e.2)))).isDict) = true) := by
        simpa [Yaml.isDict] using hcond
      rw [compatMethod, if_neg hcond2, compatMethod, if_neg hcond]
      simp only [Yaml.entries]
      rw [dictSet_map_same_key _ _ _ des hnd2]
      have hresp : (Yaml.dict (des.map (fun e =>
            (e.1, if e.1 = PyKey.s "responses" then strResponses e.2 else e.2)))).getD
            "responses" (.dict [])
          = strResponses ((Yaml.dict des).getD "responses" (.dict [])) := by
        simp only [Yaml.getD, Yaml.get?, mlookup]
        rw [dictLookup_map_entry des
          (fun k v => if k = PyKey.s "responses" then strResponses v else v)]
        cases dictLookup des (.s "responses") <;> simp [strResponses]
      rw [hresp]
      rw [stringifyResponses_strResponses]

theorem compatMethods_strMethods (mv : Yaml)
    (hnd : ∀ me ∈ mv.entries, me.2.isDict = true → nodupKeysB me.2.entries = true) :
    compatMethods (strMethods mv) = compatMethods mv := by
  match mv with
  | .str _ => rfl
  | .int _ => rfl
  | .null => rfl
  | .list _ => rfl
  | .dict mes =>
    simp only [strMethods, compatMethods, List.map_map]
    congr 1
    refine List.map_congr_left ?_
    intro me hme
    simp only [Function.comp]
    rw [compatMethod_strMethod me.1 me.2 (hnd me hme)]

theorem compatPaths_strPaths (pv : Yaml)
    (hnd : ∀ pe ∈ pv.entries, ∀ me ∈ pe.2.entries,
      me.2.isDict = true → nodupKeysB me.2.entries = true) :
    compatPaths (strPaths pv) = compatPaths pv := by
  match pv with
  | .str _ => rfl
  | .int _ => rfl
  | .null => rfl
  | .list _ => rfl
  | .dict pes =>
    simp only [strPaths, compatPaths, List.map_map]
    congr 1
    refine List.map_congr_left ?_
    intro pe hpe
    simp only [Function.comp]
    rw [compatMethods_strMethods pe.2 (hnd pe hpe)]

theorem dictLookup_of_mem_nodup : ∀ (es : List (PyKey × Yaml)) (k : PyKey) (v : Yaml),
    nodupKeysB es = true → (k, v) ∈ es → dictLookup es k = some v := by
  intro es
  induction es with
  | nil => intro k v _ hm; simp at hm
  | cons e es ih =>
    intro k v hnd hm
    simp only [nodupKeysB, List.map_cons, decide_eq_true_eq] at hnd
    rw [List.nodup_cons] at hnd
    rcases List.mem_cons.mp hm with rfl | hm2
    · simp [dictLookup]
    · have hek : e.1 ≠ k := by
        intro hk
        exact hnd.1 (hk ▸ List.mem_map_of_mem (fun e => e.1) hm2)
      simp only [dictLookup, if_neg hek]
      refine ih k v ?_ hm2
      simp only [nodupKeysB, decide_eq_true_eq]
      exact hnd.2

/-- C9: lint output is invariant under the representation of response
status-code keys.  For a document `doc` (whose mapping shapes Python walks
without raising, per `compatWF`, and whose mappings have unique keys, as
every parsed YAML document does), the corresponding document with string
status-code keys — `withStringStatusKeys doc` — normalises to the same tree,
and `run_linter` (with any rule list and validator) returns the identical
result on both documents. -/
theorem c9_status_key_invariance (doc : Yaml)
    (_hwf : compatWF doc = true)
    (hnd : respNodup doc = true)
    (htop : (!doc.isDict || nodupKeysB doc.entries) = true) :
    compatibility_layer (withStringStatusKeys doc) = compatibility_layer doc
    ∧ ∀ (rules : List NamedRule) (validate : Yaml → Except String Resolver),
        runLinterWith rules validate (withStringStatusKeys doc)
          = runLinterWith rules validate doc := by
  have hmain : compatibility_layer (withStringStatusKeys doc) = compatibility_layer doc := by
    match doc with
    | .str _ => rfl
    | .int _ => rfl
    | .null => rfl
    | .list _ => rfl
    | .dict es =>
      simp only [withStringStatusKeys, compatibility_layer, List.map_map]
      congr 1
      refine List.map_congr_left ?_
      intro e he
      simp only [Function.comp]
      by_cases hk : e.1 = PyKey.s "paths"
      · simp only [hk, eq_self_iff_true, if_true]
        have htop2 : nodupKeysB es = true := by
          simpa [Yaml.isDict, Yaml.entries] using htop
        have hlk : dictLookup es (PyKey.s "paths") = some e.2 := by
          have : ((e.1, e.2) : PyKey × Yaml) ∈ es := by simpa using he
          exact dictLookup_of_mem_nodup es _ _ htop2 (hk ▸ this)
        have hpv : (Yaml.dict es).getD "paths" (.dict []) = e.2 := by
          simp [Yaml.getD, Yaml.get?, mlookup, hlk]
        rw [compatPaths_strPaths]
        intro pe hpe me hme hdict
        have hnd2 := hnd
        simp only [respNodup, hpv, List.all_eq_true] at hnd2
        have := hnd2 pe hpe me hme
        simp only [Bool.or_eq_true, Bool.not_eq_true] at this
        rcases this with h1 | h1
        · rw [hdict] at h1; cases h1
        · exact h1
      · simp only [if_neg hk]
  refine ⟨hmain, fun rules validate => ?_⟩
  simp only [runLinterWith, hmain]

/-- The pair of documents of the C9 witness: `sampleDoc` uses an integer
`200` status key; its string-key counterpart uses `"200"`. -/
theorem c9_witness :
    runLinterWith (linterRules witnessInflect) acceptAll (withStringStatusKeys sampleDoc)
      = runLinterWith (linterRules witnessInflect) acceptAll sampleDoc :=
  (c9_status_key_invariance sampleDoc (by decide) (by decide) (by decide)).2
    (linterRules witnessInflect) acceptAll
